import Mathlib

set_option maxRecDepth 100000

/-!
Shallow embedding of the tour booking-and-payment server (`src/index.js`):
booking CRUD, Stripe checkout initiation, payment reconciliation, user
upsert and profile update, and the dashboard booking chart, modelled as
pure functions over explicit store states.  JS numbers are modelled as
rationals, `undefined`/`NaN` propagation with explicit `Option`/`JNum`
types, and MongoDB collections as lists (insert = append, `findOne` =
first match, `updateOne` = update of the first match).
-/

namespace Travelio

/-- JS truthiness of an optional string field: `undefined` and `""` are falsy. -/
def truthyS : Option String → Bool
  | none => false
  | some s => s ≠ ""

/-- JS truthiness of an optional numeric field: `undefined` and `0` are falsy. -/
def truthyQ : Option ℚ → Bool
  | none => false
  | some q => q ≠ 0

/-- MongoDB `$set` semantics on one optional field: a field present in the
update document replaces the stored value, an absent field keeps it. -/
def setOpt {α : Type} (new old : Option α) : Option α :=
  match new with
  | some v => some v
  | none => old

/-- JS `a || b` on two optional strings. -/
def jOrS (a b : Option String) : Option String :=
  if truthyS a then a else b

/-- JS `Math.round`: round half toward positive infinity. -/
def jround (q : ℚ) : ℤ := ⌊q + 1/2⌋

/-- A JS numeric value as it flows through the amount computation:
either a finite number or `NaN` (with `undefined` collapsed to `NaN`,
which has the same truthiness and the same arithmetic absorption). -/
inductive JNum where
  | nan
  | num (q : ℚ)
deriving DecidableEq

/-- JS truthiness on `JNum`: `NaN` and `0` are falsy. -/
def JNum.truthy : JNum → Bool
  | .nan => false
  | .num q => q ≠ 0

/-- JS `a || b` on numeric values. -/
def jOr (a b : JNum) : JNum :=
  if a.truthy then a else b

/-- JS multiplication: `NaN` absorbs. -/
def jMul (a b : JNum) : JNum :=
  match a, b with
  | .num x, .num y => .num (x * y)
  | _, _ => .nan

/-- An optional stored number seen as a JS value (`undefined` behaves as
`NaN` for truthiness and arithmetic here). -/
def ofOpt : Option ℚ → JNum
  | none => .nan
  | some q => .num q

/-- One document of the `bookings` collection (fields that the server
reads or writes; absent fields are `none`). `createdAt` is modelled as
the calendar month of the creation date, `(year, monthIndex)` with the
month index 0-based as returned by `getMonth`, or `none` for a missing
or invalid date. -/
structure Booking where
  tourId : Option String := none
  userEmail : Option String := none
  travelDate : Option String := none
  tourTitle : Option String := none
  status : Option String := none
  paymentStatus : Option String := none
  transactionId : Option String := none
  finalPrice : Option ℚ := none
  originalTotal : Option ℚ := none
  pricePerPerson : Option ℚ := none
  guests : Option ℚ := none
  numberOfGuests : Option ℚ := none
  createdAt : Option (ℤ × ℕ) := none
  updatedAt : Option ℤ := none
deriving DecidableEq

/-- One document of the `payments` collection, exactly the fields the
server inserts in `GET /booking-success`. -/
structure Payment where
  bookingId : String
  tourId : String
  userEmail : Option String
  amount : ℤ
  currency : String
  transactionId : String
  paymentStatus : String
  createdAt : ℤ
deriving DecidableEq

/-- The provider checkout session as retrieved from Stripe: the fields
`GET /booking-success` reads (`payment_intent`, `amount_total`,
`currency`, `payment_status`, `metadata`, `customer_email`). -/
structure Sess where
  payment_intent : String
  amount_total : ℤ
  currency : String
  payment_status : String
  metadata_bookingId : Option String := none
  metadata_tourId : Option String := none
  metadata_userEmail : Option String := none
  customer_email : Option String := none
deriving DecidableEq

/-- The database state: the bookings collection (id-keyed) and the
payments collection. -/
structure St where
  bookings : List (String × Booking)
  payments : List Payment
deriving DecidableEq

/-- `bookingCollection.findOne({_id})`: first document with the given id. -/
def findBooking (st : St) (bid : String) : Option Booking :=
  (st.bookings.find? (fun kv => kv.1 == bid)).map Prod.snd

/-- `updateOne`: apply `f` to the first element satisfying `p`. -/
def updateFirst {α : Type} (p : α → Bool) (f : α → α) : List α → List α
  | [] => []
  | x :: xs => if p x then f x :: xs else x :: updateFirst p f xs

/-- Outcome of `GET /booking-success`. -/
inductive ConfirmRes where
  | badRequest
  | upstreamErr
  | alreadyExists (transactionId : String) (payment : Payment)
  | paidOk (transactionId : String) (paymentId : ℕ) (bookingId : Option String)
      (booking : Option Booking)
  | notPaid
deriving DecidableEq

/-- The payment document inserted by `GET /booking-success` for a paid
session `s` at time `now`. -/
def paymentDocOf (s : Sess) (now : ℤ) : Payment :=
  { bookingId := s.metadata_bookingId.getD "",
    tourId := s.metadata_tourId.getD "",
    userEmail := jOrS s.metadata_userEmail s.customer_email,
    amount := s.amount_total,
    currency := s.currency,
    transactionId := s.payment_intent,
    paymentStatus := s.payment_status,
    createdAt := now }

/-- The payment reconciler, `GET /booking-success` of `src/index.js`:
retrieve the session, short-circuit on an existing payment with the same
`payment_intent`, and on a paid session insert a payment document and
(when metadata carries a truthy bookingId) confirm the booking and
re-fetch it.  `retrieve` is the provider lookup, `now` the server clock. -/
def confirm (retrieve : String → Option Sess) (sid : Option String) (st : St)
    (now : ℤ) : ConfirmRes × St :=
  match sid with
  | none => (.badRequest, st)
  | some sid' =>
    if sid' = "" then (.badRequest, st)
    else
      match retrieve sid' with
      | none => (.upstreamErr, st)
      | some s =>
        match st.payments.find? (fun p => p.transactionId == s.payment_intent) with
        | some q => (.alreadyExists s.payment_intent q, st)
        | none =>
          if s.payment_status == "paid" then
            let payments' := st.payments ++ [paymentDocOf s now]
            if truthyS s.metadata_bookingId then
              let bid := s.metadata_bookingId.getD ""
              let bookings' := updateFirst (fun kv => kv.1 == bid)
                (fun kv => (kv.1,
                  { kv.2 with
                    paymentStatus := some "paid",
                    status := some "confirmed",
                    transactionId := some s.payment_intent,
                    updatedAt := some now }))
                st.bookings
              let bk := (bookings'.find? (fun kv => kv.1 == bid)).map Prod.snd
              (.paidOk s.payment_intent st.payments.length s.metadata_bookingId bk,
                ⟨bookings', payments'⟩)
            else
              (.paidOk s.payment_intent st.payments.length s.metadata_bookingId none,
                ⟨st.bookings, payments'⟩)
          else
            (.notPaid, st)

/-- The raw JS expression deriving the charge value in
`POST /create-checkout-session`:
`booking.finalPrice || booking.originalTotal || booking.pricePerPerson *
(booking.guests || booking.numberOfGuests || 1)`. -/
def chainJS (b : Booking) : JNum :=
  jOr (ofOpt b.finalPrice)
    (jOr (ofOpt b.originalTotal)
      (jMul (ofOpt b.pricePerPerson)
        (jOr (ofOpt b.guests) (jOr (ofOpt b.numberOfGuests) (.num 1)))))

/-- `Math.round(Number(chain) * 100) || 0`: the final integer amount in
minor units, with `NaN` collapsing to `0` through `|| 0`. -/
def deriveAmount (b : Booking) : ℤ :=
  match chainJS b with
  | .num q => jround (q * 100)
  | .nan => 0

/-- Modelled from the wording of the claim: the guest count, preferring
`guests`, else `numberOfGuests`, defaulting to 1 (zero counts as absent,
matching JS truthiness). -/
def guestCount (b : Booking) : ℚ :=
  if truthyQ b.guests then b.guests.getD 0
  else if truthyQ b.numberOfGuests then b.numberOfGuests.getD 0
  else 1

/-- Modelled from the wording of the claim: prefer `finalPrice`, else
`originalTotal`, else `pricePerPerson` times the guest count, converted
to integer minor units; a missing unit price is non-numeric and yields 0. -/
def specAmount (b : Booking) : ℤ :=
  if truthyQ b.finalPrice then jround (b.finalPrice.getD 0 * 100)
  else if truthyQ b.originalTotal then jround (b.originalTotal.getD 0 * 100)
  else
    match b.pricePerPerson with
    | none => 0
    | some p => jround (p * guestCount b * 100)

/-- The provider session-creation request built by
`POST /create-checkout-session`: currency, single line item at the
derived amount, customer email, and reconciliation metadata. -/
structure SessReq where
  currency : String := "usd"
  unit_amount : ℤ := 0
  product_name : String := ""
  customer_email : Option String := none
  metadata_bookingId : String := ""
  metadata_tourId : String := ""
  metadata_userEmail : String := ""
deriving DecidableEq

/-- Outcome of `POST /create-checkout-session`. -/
inductive CheckoutRes where
  | badRequest
  | notFound
  | invalidAmount
  | created
deriving DecidableEq

/-- The session request the handler sends to the provider for a booking. -/
def mkSessReq (bid : String) (b : Booking) (amount : ℤ) : SessReq :=
  { currency := "usd",
    unit_amount := amount,
    product_name := if truthyS b.tourTitle then b.tourTitle.getD "" else "Tour Booking",
    customer_email := if truthyS b.userEmail then b.userEmail else none,
    metadata_bookingId := bid,
    metadata_tourId := b.tourId.getD "",
    metadata_userEmail := b.userEmail.getD "" }

/-- The checkout initiator, `POST /create-checkout-session`: validate the
body, look the booking up, derive the amount, and (when valid) issue one
provider session-creation call.  The second component is the list of
provider calls made; the third is the booking store after the call,
which the handler never writes. -/
def createCheckoutSession (st : St) (bodyBookingId : Option String) :
    CheckoutRes × List SessReq × St :=
  match bodyBookingId with
  | none => (.badRequest, [], st)
  | some bid =>
    if bid = "" then (.badRequest, [], st)
    else
      match findBooking st bid with
      | none => (.notFound, [], st)
      | some b =>
        let amount := deriveAmount b
        if amount = 0 then (.invalidAmount, [], st)
        else (.created, [mkSessReq bid b amount], st)

/-- Request body of `POST /bookings`. -/
structure BookingBody where
  tourId : Option String := none
  userEmail : Option String := none
  travelDate : Option String := none
  tourTitle : Option String := none
  status : Option String := none
  paymentStatus : Option String := none
  finalPrice : Option ℚ := none
  originalTotal : Option ℚ := none
  pricePerPerson : Option ℚ := none
  guests : Option ℚ := none
  numberOfGuests : Option ℚ := none
deriving DecidableEq

/-- Outcome of `POST /bookings`. -/
inductive CreateRes where
  | badRequest
  | created (id : String)
deriving DecidableEq

/-- `POST /bookings`: reject when any of `tourId`, `userEmail`,
`travelDate` is falsy, otherwise insert the body with server-assigned
`createdAt` (modelled as its calendar month) and defaulted
`status`/`paymentStatus`. -/
def createBooking (st : St) (body : BookingBody) (newId : String) (now : ℤ × ℕ) :
    CreateRes × St :=
  if truthyS body.tourId && truthyS body.userEmail && truthyS body.travelDate then
    (.created newId,
      { st with bookings := st.bookings ++ [(newId,
        { tourId := body.tourId,
          userEmail := body.userEmail,
          travelDate := body.travelDate,
          tourTitle := body.tourTitle,
          status := some (if truthyS body.status then body.status.getD "" else "pending"),
          paymentStatus :=
            some (if truthyS body.paymentStatus then body.paymentStatus.getD "" else "unpaid"),
          transactionId := none,
          finalPrice := body.finalPrice,
          originalTotal := body.originalTotal,
          pricePerPerson := body.pricePerPerson,
          guests := body.guests,
          numberOfGuests := body.numberOfGuests,
          createdAt := some now,
          updatedAt := none })] })
  else (.badRequest, st)

/-- One document of the `users` collection. -/
structure UserDoc where
  email : String
  role : String
  name : Option String := none
  avatar : Option String := none
  country : Option String := none
  travelStyle : Option String := none
  phone : Option String := none
  updatedAt : Option ℤ := none
deriving DecidableEq

/-- Request body of `PATCH /users/profile/:email`. -/
structure ProfilePatch where
  email : Option String := none
  role : Option String := none
  name : Option String := none
  avatar : Option String := none
  country : Option String := none
  travelStyle : Option String := none
  phone : Option String := none
deriving DecidableEq

/-- The `$set` applied by the profile update after the handler deletes
`email` and `role` from the payload: only the remaining provided fields
and `updatedAt` are written. -/
def applyPatch (p : ProfilePatch) (now : ℤ) (u : UserDoc) : UserDoc :=
  { u with
    name := setOpt p.name u.name,
    avatar := setOpt p.avatar u.avatar,
    country := setOpt p.country u.country,
    travelStyle := setOpt p.travelStyle u.travelStyle,
    phone := setOpt p.phone u.phone,
    updatedAt := some now }

/-- `PATCH /users/profile/:email`: update the first user with the given
email by the sanitised payload. -/
def updateUserProfile (store : List UserDoc) (e : String) (p : ProfilePatch)
    (now : ℤ) : List UserDoc :=
  updateFirst (fun u => u.email == e) (applyPatch p now) store

/-- Request body of `POST /users` (name, email, avatar, country,
travelStyle, optional role). -/
structure UserBody where
  email : Option String := none
  role : Option String := none
  name : Option String := none
  avatar : Option String := none
  country : Option String := none
  travelStyle : Option String := none
deriving DecidableEq

/-- Outcome of `POST /users`. -/
inductive SaveRes where
  | badRequest
  | saved
deriving DecidableEq

/-- `POST /users`: require a truthy email, default the role to `"user"`
when falsy, then upsert by email with `$set` of the whole body (so every
body field, the defaulted role and `updatedAt` overwrite the stored
document; absent optional fields keep their stored values). -/
def saveUser (store : List UserDoc) (body : UserBody) (now : ℤ) :
    SaveRes × List UserDoc :=
  if ¬ truthyS body.email then (.badRequest, store)
  else
    let e := body.email.getD ""
    let r := if truthyS body.role then body.role.getD "" else "user"
    if store.any (fun u => u.email == e) then
      (.saved, updateFirst (fun u => u.email == e)
        (fun u =>
          { email := e, role := r,
            name := setOpt body.name u.name,
            avatar := setOpt body.avatar u.avatar,
            country := setOpt body.country u.country,
            travelStyle := setOpt body.travelStyle u.travelStyle,
            phone := u.phone,
            updatedAt := some now }) store)
    else
      (.saved, store ++ [{ email := e,
                           role := r,
                           name := body.name,
                           avatar := body.avatar,
                           country := body.country,
                           travelStyle := body.travelStyle,
                           phone := none,
                           updatedAt := some now }])

/-- One increment of the JS `monthMap` object: bump the count of an
existing key in place or append the key with count 1. -/
def bumpKey : List ((ℤ × ℕ) × ℕ) → ℤ × ℕ → List ((ℤ × ℕ) × ℕ)
  | [], k => [(k, 1)]
  | (k', c) :: t, k => if k' = k then (k', c + 1) :: t else (k', c) :: bumpKey t k

/-- The `monthMap` built by `GET /dashboard-stats`: bookings bucketed by
creation month, skipping invalid dates. -/
def monthMap (bs : List Booking) : List ((ℤ × ℕ) × ℕ) :=
  bs.foldl (fun m b =>
    match b.createdAt with
    | none => m
    | some k => bumpKey m k) []

/-- The sort key `new Date(year, month, 1).getTime()` is strictly
monotone in the month index `12 * year + month`. -/
def keyTime (k : ℤ × ℕ) : ℤ := 12 * k.1 + k.2

/-- Insertion step of the chart sort (ascending sort key). -/
def insSorted (x : (ℤ × ℕ) × ℕ) : List ((ℤ × ℕ) × ℕ) → List ((ℤ × ℕ) × ℕ)
  | [] => [x]
  | y :: ys => if keyTime x.1 ≤ keyTime y.1 then x :: y :: ys else y :: insSorted x ys

/-- The chart sort: ascending by sort key. -/
def sortEntries : List ((ℤ × ℕ) × ℕ) → List ((ℤ × ℕ) × ℕ)
  | [] => []
  | x :: xs => insSorted x (sortEntries xs)

/-- JS `slice(-n)`: the last `n` elements. -/
def lastN {α : Type} (n : ℕ) (l : List α) : List α :=
  l.drop (l.length - n)

/-- `bookingChartData` of `GET /dashboard-stats`: bucket all bookings by
creation month, sort ascending by month, keep the last 6 entries. -/
def bookingChartData (bs : List Booking) : List ((ℤ × ℕ) × ℕ) :=
  lastN 6 (sortEntries (monthMap bs))

/-- The booking chart computed by the dashboard over the current store. -/
def dashboardChart (st : St) : List ((ℤ × ℕ) × ℕ) :=
  bookingChartData (st.bookings.map Prod.snd)

/-- Modelled from the wording of the claim: the calendar month `k` lies
within the trailing 6-month window ending at the month of `now`. -/
def withinTrailing6 (now k : ℤ × ℕ) : Bool :=
  decide (keyTime now - 5 ≤ keyTime k) && decide (keyTime k ≤ keyTime now)

/-! Concrete fixtures used by the witnesses. -/

/-- A paid provider session pointing at booking `b1`. -/
def sessPaid : Sess :=
  { payment_intent := "pi_1",
    amount_total := 10000,
    currency := "usd",
    payment_status := "paid",
    metadata_bookingId := some "b1",
    metadata_tourId := some "t1",
    metadata_userEmail := some "ann@x.com",
    customer_email := some "ann@x.com" }

/-- An unpaid (expired or abandoned) provider session. -/
def sessUnpaid : Sess :=
  { payment_intent := "pi_2",
    amount_total := 10000,
    currency := "usd",
    payment_status := "unpaid",
    metadata_bookingId := some "b1" }

/-- A provider lookup knowing the two fixture sessions. -/
def provider : String → Option Sess :=
  fun sid => if sid = "sp" then some sessPaid else if sid = "su" then some sessUnpaid else none

/-- A pending, unpaid fixture booking. -/
def bookingPending : Booking :=
  { tourId := some "t1",
    userEmail := some "ann@x.com",
    travelDate := some "2026-01-01",
    tourTitle := some "City Tour",
    status := some "pending",
    paymentStatus := some "unpaid",
    pricePerPerson := some 50,
    guests := some 2,
    createdAt := some (2025, 9) }

/-- Fixture store: one pending booking, no payments. -/
def st0 : St := { bookings := [("b1", bookingPending)], payments := [] }

/-- Fixture: a booking whose finalPrice is present but zero and whose
originalTotal is positive yet too small to survive rounding. -/
def stTiny : St :=
  { bookings := [("bt", { finalPrice := some 0, originalTotal := some (1/1000) })],
    payments := [] }

/-- Fixture: a zero finalPrice together with a normal originalTotal. -/
def stZeroFinal : St :=
  { bookings := [("bz", { finalPrice := some 0, originalTotal := some 20 })],
    payments := [] }

/-- Fixture: a payload trying to overwrite email and role. -/
def patchAttack : ProfilePatch :=
  { email := some "evil@x.com", role := some "admin", name := some "Eve" }

/-- Fixture: a stored admin user. -/
def usersAdmin : List UserDoc :=
  [{ email := "ann@x.com", role := "admin", name := some "Ann" }]

/-- Fixture: an upsert body for the admin email, with no role field. -/
def bodyNoRole : UserBody := { email := some "ann@x.com", name := some "Ann" }

/-- The count stored in the month map under key `k` (0 when absent). -/
def getCnt (m : List ((ℤ × ℕ) × ℕ)) (k : ℤ × ℕ) : ℕ :=
  ((m.find? (fun x => x.1 == k)).map Prod.snd).getD 0

/-! General list lemmas about the store operations. -/

theorem find?_eq_none_of_countP_zero {α : Type} (p : α → Bool) {l : List α}
    (h : l.countP p = 0) : l.find? p = none := by
  rw [List.find?_eq_none]
  intro x hx
  have hx' := List.countP_eq_zero.mp h x hx
  simpa using hx'

theorem find?_append_of_none {α : Type} (p : α → Bool) {l₁ : List α} (l₂ : List α)
    (h : l₁.find? p = none) : (l₁ ++ l₂).find? p = l₂.find? p := by
  induction l₁ with
  | nil => rfl
  | cons x xs ih =>
    rcases hx : p x with _ | _
    · rw [List.cons_append, List.find?_cons_of_neg _ (by simp [hx])]
      rw [List.find?_cons_of_neg _ (by simp [hx])] at h
      exact ih h
    · rw [List.find?_cons_of_pos _ hx] at h
      exact absurd h (by simp)

/-- C3: for every session whose provider status is not `"paid"` and whose
transactionId has no prior Payment record, `confirm` returns NotPaid and
leaves the payment and booking stores completely unchanged. -/
theorem c3_confirm_not_paid (retrieve : String → Option Sess) (sid : String)
    (s : Sess) (st : St) (now : ℤ)
    (hsid : sid ≠ "")
    (hs : retrieve sid = some s)
    (hnp : s.payment_status ≠ "paid")
    (hfresh : st.payments.countP (fun p => p.transactionId == s.payment_intent) = 0) :
    confirm retrieve (some sid) st now = (.notPaid, st) := by
  have hf : st.payments.find? (fun p => p.transactionId == s.payment_intent) = none :=
    find?_eq_none_of_countP_zero _ hfresh
  simp [confirm, hsid, hs, hf, hnp]

theorem c3_witness :
    sessUnpaid.payment_status ≠ "paid" ∧
    confirm provider (some "su") st0 3 = (.notPaid, st0) :=
  ⟨by decide, c3_confirm_not_paid provider "su" sessUnpaid st0 3 (by decide) (by decide)
    (by decide) (by decide)⟩

/-- C6: for every bookingId that does not reference an existing booking,
the checkout initiator fails with NotFound, makes no provider call, and
leaves the booking store untouched. -/
theorem c6_checkout_not_found (st : St) (bid : String)
    (hbid : bid ≠ "")
    (hb : findBooking st bid = none) :
    createCheckoutSession st (some bid) = (.notFound, [], st) := by
  simp [createCheckoutSession, hbid, hb]

theorem c6_witness :
    findBooking st0 "zz" = none ∧
    createCheckoutSession st0 (some "zz") = (.notFound, [], st0) :=
  ⟨by decide, c6_checkout_not_found st0 "zz" (by decide) (by decide)⟩

/-- C5: for every booking-creation request missing any of `tourId`,
`userEmail`, or `travelDate`, creation fails with BadRequest and no
document is written to the booking store. -/
theorem c5_create_booking_missing_field (st : St) (body : BookingBody)
    (newId : String) (now : ℤ × ℕ)
    (h : body.tourId = none ∨ body.userEmail = none ∨ body.travelDate = none) :
    createBooking st body newId now = (.badRequest, st) := by
  rcases h with h | h | h <;> simp [createBooking, h, truthyS]

theorem c5_witness :
    ({ userEmail := some "ann@x.com", travelDate := some "2026-01-01" } : BookingBody).tourId
        = none ∧
    createBooking st0 { userEmail := some "ann@x.com", travelDate := some "2026-01-01" }
        "nb" (2025, 9) = (.badRequest, st0) :=
  ⟨rfl, c5_create_booking_missing_field st0 _ "nb" (2025, 9) (Or.inl rfl)⟩

/-- On a fresh paid session the reconciler appends exactly the payment
document `paymentDocOf s now`, whatever the metadata bookingId is. -/
theorem confirm_paid_payments (retrieve : String → Option Sess) (sid : String)
    (s : Sess) (st : St) (now : ℤ)
    (hsid : sid ≠ "")
    (hs : retrieve sid = some s)
    (hpaid : s.payment_status = "paid")
    (hf : st.payments.find? (fun p => p.transactionId == s.payment_intent) = none) :
    ((confirm retrieve (some sid) st now).2).payments
      = st.payments ++ [paymentDocOf s now] := by
  cases hm : truthyS s.metadata_bookingId <;>
    simp [confirm, hsid, hs, hf, hpaid, hm]

/-- Re-fetching a booking after `updateOne` on the same filter returns
the updated first match. -/
theorem findBooking_updateFirst (l : List (String × Booking)) (bid : String)
    (f : Booking → Booking) :
    ((updateFirst (fun kv => kv.1 == bid) (fun kv => (kv.1, f kv.2)) l).find?
        (fun kv => kv.1 == bid)).map Prod.snd
      = ((l.find? (fun kv => kv.1 == bid)).map Prod.snd).map f := by
  induction l with
  | nil => rfl
  | cons x xs ih =>
    cases hx : (x.1 == bid)
    · simp [updateFirst, List.find?_cons, hx, ih]
    · simp [updateFirst, List.find?_cons, hx]

/-- C1: for every session whose provider status is `"paid"` and whose
transactionId has no payment record yet, calling `confirm` twice yields
exactly one payment document for that transactionId, and the second call
returns AlreadyRecorded with the same transactionId and the payment
record stored by the first call, performing no write at all. -/
theorem c1_confirm_idempotent (retrieve : String → Option Sess) (sid : String)
    (s : Sess) (st : St) (n₁ n₂ : ℤ)
    (hsid : sid ≠ "")
    (hs : retrieve sid = some s)
    (hpaid : s.payment_status = "paid")
    (hfresh : st.payments.countP (fun p => p.transactionId == s.payment_intent) = 0) :
    (((confirm retrieve (some sid) (confirm retrieve (some sid) st n₁).2 n₂).2).payments.countP
        (fun p => p.transactionId == s.payment_intent) = 1)
    ∧ (∃ q, (confirm retrieve (some sid) (confirm retrieve (some sid) st n₁).2 n₂).1
          = ConfirmRes.alreadyExists s.payment_intent q
        ∧ ((confirm retrieve (some sid) st n₁).2).payments.find?
            (fun p => p.transactionId == s.payment_intent) = some q)
    ∧ (confirm retrieve (some sid) (confirm retrieve (some sid) st n₁).2 n₂).2
        = (confirm retrieve (some sid) st n₁).2 := by
  have hf : st.payments.find? (fun p => p.transactionId == s.payment_intent) = none :=
    find?_eq_none_of_countP_zero _ hfresh
  have hp1 : ((confirm retrieve (some sid) st n₁).2).payments
      = st.payments ++ [paymentDocOf s n₁] :=
    confirm_paid_payments retrieve sid s st n₁ hsid hs hpaid hf
  have hfind2 : ((confirm retrieve (some sid) st n₁).2).payments.find?
      (fun p => p.transactionId == s.payment_intent) = some (paymentDocOf s n₁) := by
    rw [hp1, find?_append_of_none _ _ hf]
    simp [List.find?, paymentDocOf]
  have hAE : ∀ st₁ : St,
      st₁.payments.find? (fun p => p.transactionId == s.payment_intent)
        = some (paymentDocOf s n₁) →
      confirm retrieve (some sid) st₁ n₂
        = (ConfirmRes.alreadyExists s.payment_intent (paymentDocOf s n₁), st₁) := by
    intro st₁ h₁
    simp [confirm, hsid, hs, h₁]
  have hsecond := hAE _ hfind2
  refine ⟨?_, ⟨paymentDocOf s n₁, ?_, ?_⟩, ?_⟩
  · rw [hsecond]
    simp [hp1, List.countP_append, hfresh, paymentDocOf]
  · rw [hsecond]
  · exact hfind2
  · rw [hsecond]

theorem c1_witness :
    (((confirm provider (some "sp") (confirm provider (some "sp") st0 1).2 2).2).payments.countP
        (fun p => p.transactionId == "pi_1") = 1)
    ∧ (confirm provider (some "sp") (confirm provider (some "sp") st0 1).2 2).2
        = (confirm provider (some "sp") st0 1).2 := by
  have h := c1_confirm_idempotent provider "sp" sessPaid st0 1 2 (by decide) (by decide)
    (by decide) (by decide)
  exact ⟨h.1, h.2.2⟩

/-- C2: for every paid session whose metadata bookingId references an
existing booking and whose transactionId has no prior payment record,
`confirm` appends the new payment document, sets that booking to
paymentStatus paid, status confirmed with the session transactionId, and
returns the updated booking together with the new payment id. -/
theorem c2_confirm_paid_updates (retrieve : String → Option Sess) (sid : String)
    (s : Sess) (st : St) (now : ℤ) (bid : String) (b : Booking)
    (hsid : sid ≠ "")
    (hs : retrieve sid = some s)
    (hpaid : s.payment_status = "paid")
    (hbid : s.metadata_bookingId = some bid)
    (hbid' : bid ≠ "")
    (hfresh : st.payments.countP (fun p => p.transactionId == s.payment_intent) = 0)
    (hb : findBooking st bid = some b) :
    ((confirm retrieve (some sid) st now).2).payments
      = st.payments ++ [{ bookingId := bid,
                          tourId := s.metadata_tourId.getD "",
                          userEmail := jOrS s.metadata_userEmail s.customer_email,
                          amount := s.amount_total,
                          currency := s.currency,
                          transactionId := s.payment_intent,
                          paymentStatus := "paid",
                          createdAt := now }]
    ∧ findBooking (confirm retrieve (some sid) st now).2 bid
        = some { b with
                 paymentStatus := some "paid",
                 status := some "confirmed",
                 transactionId := some s.payment_intent,
                 updatedAt := some now }
    ∧ (confirm retrieve (some sid) st now).1
        = ConfirmRes.paidOk s.payment_intent st.payments.length (some bid)
            (some { b with
                    paymentStatus := some "paid",
                    status := some "confirmed",
                    transactionId := some s.payment_intent,
                    updatedAt := some now }) := by
  have hf : st.payments.find? (fun p => p.transactionId == s.payment_intent) = none :=
    find?_eq_none_of_countP_zero _ hfresh
  have hm : truthyS s.metadata_bookingId = true := by simp [hbid, truthyS, hbid']
  have hm' : truthyS (some bid) = true := by simp [truthyS, hbid']
  have hb' : (st.bookings.find? (fun kv => kv.1 == bid)).map Prod.snd = some b := hb
  have hupd := findBooking_updateFirst st.bookings bid
    (fun bk => { bk with
                 paymentStatus := some "paid",
                 status := some "confirmed",
                 transactionId := some s.payment_intent,
                 updatedAt := some now })
  rw [hb'] at hupd
  refine ⟨?_, ?_, ?_⟩ <;>
    simp [confirm, findBooking, hsid, hs, hf, hpaid, hm, hm', hbid, hupd, paymentDocOf]

theorem c2_witness :
    findBooking st0 "b1" = some bookingPending ∧
    (confirm provider (some "sp") st0 7).1
      = ConfirmRes.paidOk "pi_1" 0 (some "b1")
          (some { bookingPending with
                  paymentStatus := some "paid",
                  status := some "confirmed",
                  transactionId := some "pi_1",
                  updatedAt := some 7 }) := by
  have h := c2_confirm_paid_updates provider "sp" sessPaid st0 7 "b1" bookingPending
    (by decide) (by decide) (by decide) (by decide) (by decide) (by decide) (by decide)
  exact ⟨by decide, h.2.2⟩

/-- The truthiness of an optional number survives its injection into JS
values. -/
theorem ofOpt_truthy (o : Option ℚ) : (ofOpt o).truthy = truthyQ o := by
  rcases o with _ | q <;> simp [ofOpt, JNum.truthy, truthyQ]

/-- The guest-count subchain `guests || numberOfGuests || 1` always
evaluates to the numeric guest count. -/
theorem guestChain (b : Booking) :
    jOr (ofOpt b.guests) (jOr (ofOpt b.numberOfGuests) (JNum.num 1))
      = JNum.num (guestCount b) := by
  rw [jOr, jOr, ofOpt_truthy, ofOpt_truthy]
  unfold guestCount
  cases htg : truthyQ b.guests
  · cases htn : truthyQ b.numberOfGuests
    · simp
    · simp only [if_true, if_false, Bool.false_eq_true, ite_false, ite_true]
      rcases hn : b.numberOfGuests with _ | n
      · rw [hn] at htn; simp [truthyQ] at htn
      · simp [ofOpt]
  · simp only [ite_true]
    rcases hg : b.guests with _ | g
    · rw [hg] at htg; simp [truthyQ] at htg
    · simp [ofOpt]

/-- The raw JS amount expression agrees with the spec-level preference
chain (prefer a truthy final price, else a truthy pre-discount total,
else unit price times guest count, non-numeric collapsing to 0). -/
theorem deriveAmount_eq_specAmount (b : Booking) : deriveAmount b = specAmount b := by
  unfold deriveAmount specAmount chainJS
  rw [guestChain, jOr, jOr, ofOpt_truthy, ofOpt_truthy]
  cases hf : truthyQ b.finalPrice
  · cases ho : truthyQ b.originalTotal
    · simp only [Bool.false_eq_true, ite_false]
      rcases hp : b.pricePerPerson with _ | p
      · simp [ofOpt, jMul]
      · simp [ofOpt, jMul]
    · simp only [Bool.false_eq_true, ite_false, ite_true]
      rcases hot : b.originalTotal with _ | t
      · rw [hot] at ho; simp [truthyQ] at ho
      · simp [ofOpt]
  · simp only [ite_true]
    rcases hfp : b.finalPrice with _ | q
    · rw [hfp] at hf; simp [truthyQ] at hf
    · simp [ofOpt]

/-- C4: for every existing booking the checkout initiator charges the
amount given by the preference chain (finalPrice, else originalTotal,
else pricePerPerson times guest count with guest count defaulting to 1)
in integer minor units; pricePerPerson 50 with guests 2 and no
finalPrice/originalTotal yields 10000 cents, and a zero or non-numeric
derived amount fails with InvalidAmount without creating a session. -/
theorem c4_checkout_amount (st : St) (bid : String) (b : Booking)
    (hbid : bid ≠ "")
    (hb : findBooking st bid = some b) :
    (specAmount b ≠ 0 →
      createCheckoutSession st (some bid)
        = (.created, [mkSessReq bid b (specAmount b)], st))
    ∧ (specAmount b = 0 →
      createCheckoutSession st (some bid) = (.invalidAmount, [], st))
    ∧ specAmount { pricePerPerson := some 50, guests := some 2 } = 10000 := by
  have hd : deriveAmount b = specAmount b := deriveAmount_eq_specAmount b
  refine ⟨?_, ?_, by with_unfolding_all decide⟩
  · intro h
    simp [createCheckoutSession, hbid, hb, hd, h]
  · intro h
    simp [createCheckoutSession, hbid, hb, hd, h]

theorem c4_witness :
    findBooking st0 "b1" = some bookingPending ∧
    createCheckoutSession st0 (some "b1")
      = (.created, [mkSessReq "b1" bookingPending 10000], st0) := by
  have h := (c4_checkout_amount st0 "b1" bookingPending (by decide) (by decide)).1
    (by with_unfolding_all decide)
  have e : specAmount bookingPending = 10000 := by with_unfolding_all decide
  rw [e] at h
  exact ⟨by decide, h⟩

theorem c10_counterexample :
    ((findBooking stTiny "bt").getD {}).finalPrice = some 0
    ∧ ((findBooking stTiny "bt").getD {}).originalTotal = some (1/1000)
    ∧ (0 : ℚ) < 1/1000
    ∧ createCheckoutSession stTiny (some "bt") = (.invalidAmount, [], stTiny) := by
  with_unfolding_all decide

/-- C10 amended: for every existing booking whose finalPrice is falsy
(absent or zero) and whose originalTotal is a positive number, the
checkout initiator derives the charge from originalTotal times 100
(rounded); it creates the session rather than failing with InvalidAmount
whenever that rounded amount is nonzero (for 0 < originalTotal < 1/200
the rounded amount is 0 and the call still fails with InvalidAmount). -/
theorem c10_zero_finalPrice_falls_through (st : St) (bid : String) (b : Booking) (t : ℚ)
    (hbid : bid ≠ "")
    (hb : findBooking st bid = some b)
    (hfp : b.finalPrice = none ∨ b.finalPrice = some 0)
    (hot : b.originalTotal = some t)
    (ht : 0 < t)
    (hnz : jround (t * 100) ≠ 0) :
    createCheckoutSession st (some bid)
      = (.created, [mkSessReq bid b (jround (t * 100))], st) := by
  have hda : deriveAmount b = jround (t * 100) := by
    unfold deriveAmount chainJS
    have h1 : (ofOpt b.finalPrice).truthy = false := by
      rcases hfp with h | h <;> simp [h, ofOpt, JNum.truthy]
    have h2 : (ofOpt b.originalTotal).truthy = true := by
      simp [hot, ofOpt, JNum.truthy, ne_of_gt ht]
    rw [jOr, jOr, h1, h2]
    simp [hot, ofOpt]
  simp [createCheckoutSession, hbid, hb, hda, hnz]

theorem c10_witness :
    (0 : ℚ) < 20 ∧
    createCheckoutSession stZeroFinal (some "bz")
      = (.created,
         [mkSessReq "bz" { finalPrice := some 0, originalTotal := some 20 } 2000],
         stZeroFinal) := by
  have h := c10_zero_finalPrice_falls_through stZeroFinal "bz"
    { finalPrice := some 0, originalTotal := some 20 } 20 (by decide) (by decide)
    (Or.inr rfl) rfl (by with_unfolding_all decide) (by with_unfolding_all decide)
  have e : jround ((20 : ℚ) * 100) = 2000 := by with_unfolding_all decide
  rw [e] at h
  exact ⟨by with_unfolding_all decide, h⟩

/-- `updateOne` leaves every stored value of a field untouched when the
update function preserves that field. -/
theorem updateFirst_getElem_map {α β : Type} (q : α → Bool) (f : α → α) (g : α → β)
    (hg : ∀ a, g (f a) = g a) (l : List α) (i : ℕ) :
    ((updateFirst q f l)[i]?).map g = (l[i]?).map g := by
  induction l generalizing i with
  | nil => rfl
  | cons x xs ih =>
    cases hx : q x
    · cases i <;> simp [updateFirst, hx, ih]
    · cases i <;> simp [updateFirst, hx, hg]

/-- C8: for every profile-update request, even one whose payload carries
email or role fields, every stored user keeps its email and role
unchanged (the handler deletes both from the payload before `$set`). -/
theorem c8_profile_update_preserves_email_role (store : List UserDoc) (e : String)
    (p : ProfilePatch) (now : ℤ) (i : ℕ)
    (_hp : p.email.isSome = true ∨ p.role.isSome = true) :
    ((updateUserProfile store e p now)[i]?).map UserDoc.email
        = (store[i]?).map UserDoc.email
    ∧ ((updateUserProfile store e p now)[i]?).map UserDoc.role
        = (store[i]?).map UserDoc.role :=
  ⟨updateFirst_getElem_map (fun u : UserDoc => u.email == e) (applyPatch p now)
     UserDoc.email (fun _ => rfl) store i,
   updateFirst_getElem_map (fun u : UserDoc => u.email == e) (applyPatch p now)
     UserDoc.role (fun _ => rfl) store i⟩

theorem c8_witness :
    patchAttack.email.isSome = true ∧
    ((updateUserProfile usersAdmin "ann@x.com" patchAttack 5)[0]?).map UserDoc.email
      = (usersAdmin[0]?).map UserDoc.email ∧
    ((updateUserProfile usersAdmin "ann@x.com" patchAttack 5)[0]?).map UserDoc.role
      = (usersAdmin[0]?).map UserDoc.role :=
  ⟨rfl,
   (c8_profile_update_preserves_email_role usersAdmin "ann@x.com" patchAttack 5 0
     (Or.inl rfl)).1,
   (c8_profile_update_preserves_email_role usersAdmin "ann@x.com" patchAttack 5 0
     (Or.inl rfl)).2⟩

/-- `find?` through `updateOne` on the same filter: when the update
preserves the filter, re-finding returns the updated first match. -/
theorem find?_updateFirst {α : Type} (q : α → Bool) (f : α → α)
    (hf : ∀ a, q a = true → q (f a) = true) (l : List α) :
    (updateFirst q f l).find? q = (l.find? q).map f := by
  induction l with
  | nil => rfl
  | cons x xs ih =>
    cases hx : q x
    · simp [updateFirst, List.find?_cons, hx, ih]
    · simp [updateFirst, List.find?_cons, hx, hf x hx]

/-- C9: for every user-save (upsert) whose body omits the role field,
the document `findOne` returns for that email afterwards has role
`"user"` — the upsert overwrites any pre-existing role. -/
theorem c9_save_user_overwrites_role (store : List UserDoc) (body : UserBody)
    (now : ℤ) (e : String)
    (he : body.email = some e)
    (he' : e ≠ "")
    (hr : body.role = none) :
    ∃ u, (saveUser store body now).2.find? (fun x => x.email == e) = some u
      ∧ u.role = "user" := by
  have ht : truthyS body.email = true := by simp [he, truthyS, he']
  cases hany : store.any (fun u => u.email == e)
  · have hnone : store.find? (fun u => u.email == e) = none := by
      rw [List.find?_eq_none]
      intro x hx
      have hall := List.any_eq_false.mp hany x hx
      simpa using hall
    have hs2 : (saveUser store body now).2
        = store ++ [{ email := e, role := "user",
                      name := body.name,
                      avatar := body.avatar,
                      country := body.country,
                      travelStyle := body.travelStyle,
                      phone := none,
                      updatedAt := some now }] := by
      simp [saveUser, ht, he, he', hr, truthyS, hany]
    rw [hs2, find?_append_of_none _ _ hnone]
    refine ⟨{ email := e, role := "user",
              name := body.name,
              avatar := body.avatar,
              country := body.country,
              travelStyle := body.travelStyle,
              phone := none,
              updatedAt := some now }, ?_, rfl⟩
    simp [List.find?_cons]
  · have hs2 : (saveUser store body now).2
        = updateFirst (fun u => u.email == e) (fun u =>
            { email := e, role := "user",
              name := setOpt body.name u.name,
              avatar := setOpt body.avatar u.avatar,
              country := setOpt body.country u.country,
              travelStyle := setOpt body.travelStyle u.travelStyle,
              phone := u.phone,
              updatedAt := some now }) store := by
      simp [saveUser, ht, he, he', hr, truthyS, hany]
    rw [hs2]
    have hfu := find?_updateFirst (fun u => u.email == e)
      (fun u =>
        { email := e, role := "user",
          name := setOpt body.name u.name,
          avatar := setOpt body.avatar u.avatar,
          country := setOpt body.country u.country,
          travelStyle := setOpt body.travelStyle u.travelStyle,
          phone := u.phone,
          updatedAt := some now })
      (fun a _ => by simp) store
    obtain ⟨x, hx, hpx⟩ := List.any_eq_true.mp hany
    rcases hfind : store.find? (fun u => u.email == e) with _ | u₀
    · rw [List.find?_eq_none] at hfind
      exact absurd hpx (hfind x hx)
    · rw [hfind] at hfu
      exact ⟨_, hfu, rfl⟩

theorem c9_witness :
    bodyNoRole.role = none ∧
    usersAdmin.find? (fun x => x.email == "ann@x.com")
      = some { email := "ann@x.com", role := "admin", name := some "Ann" } ∧
    ∃ u, (saveUser usersAdmin bodyNoRole 9).2.find? (fun x => x.email == "ann@x.com")
      = some u ∧ u.role = "user" :=
  ⟨rfl, by decide,
   c9_save_user_overwrites_role usersAdmin bodyNoRole 9 "ann@x.com" rfl (by decide) rfl⟩

/-- Bumping a key increments exactly its own stored count. -/
theorem getCnt_bumpKey_self (m : List ((ℤ × ℕ) × ℕ)) (k : ℤ × ℕ) :
    getCnt (bumpKey m k) k = getCnt m k + 1 := by
  induction m with
  | nil => simp [bumpKey, getCnt, List.find?_cons]
  | cons x xs ih =>
    rcases x with ⟨k', c⟩
    by_cases hk : k' = k
    · subst hk
      simp [bumpKey, getCnt, List.find?_cons]
    · simp only [bumpKey, hk, if_false, ite_false]
      simpa [getCnt, List.find?_cons, hk] using ih

/-- Bumping a key leaves every other stored count unchanged. -/
theorem getCnt_bumpKey_other (m : List ((ℤ × ℕ) × ℕ)) (kb kq : ℤ × ℕ)
    (h : kq ≠ kb) :
    getCnt (bumpKey m kb) kq = getCnt m kq := by
  induction m with
  | nil =>
    have hb : (kb == kq) = false := beq_eq_false_iff_ne.mpr (Ne.symm h)
    simp [bumpKey, getCnt, List.find?_cons, hb]
  | cons x xs ih =>
    rcases x with ⟨k', c⟩
    by_cases hk : k' = kb
    · subst hk
      have hb : (k' == kq) = false := beq_eq_false_iff_ne.mpr (Ne.symm h)
      simp [bumpKey, getCnt, List.find?_cons, hb]
    · simp only [bumpKey, hk, if_false, ite_false]
      by_cases hq : k' = kq
      · subst hq
        simp [getCnt, List.find?_cons]
      · simpa [getCnt, List.find?_cons, hq] using ih

/-- Bumping preserves positivity of all stored counts. -/
theorem bumpKey_pos (m : List ((ℤ × ℕ) × ℕ)) (k : ℤ × ℕ)
    (h : ∀ e ∈ m, 0 < e.2) : ∀ e ∈ bumpKey m k, 0 < e.2 := by
  induction m with
  | nil =>
    intro e he
    simp [bumpKey] at he
    simp [he]
  | cons x xs ih =>
    rcases x with ⟨k', c⟩
    by_cases hk : k' = k
    · subst hk
      intro e he
      simp only [bumpKey, if_pos rfl, ite_true, List.mem_cons] at he
      rcases he with he | he
      · simp [he]
      · exact h e (List.mem_cons_of_mem _ he)
    · intro e he
      simp only [bumpKey, hk, if_false, ite_false, List.mem_cons] at he
      rcases he with he | he
      · exact he ▸ h _ (List.mem_cons_self _ _)
      · exact ih (fun e' he' => h e' (List.mem_cons_of_mem _ he')) e he

/-- The keys after a bump: unchanged, or with the new key appended. -/
theorem bumpKey_keys (m : List ((ℤ × ℕ) × ℕ)) (k : ℤ × ℕ) :
    (bumpKey m k).map Prod.fst
      = if k ∈ m.map Prod.fst then m.map Prod.fst else m.map Prod.fst ++ [k] := by
  induction m with
  | nil => simp [bumpKey]
  | cons x xs ih =>
    rcases x with ⟨k', c⟩
    by_cases hk : k' = k
    · subst hk
      simp [bumpKey]
    · have hkk : ¬ (k = k') := fun hh => hk hh.symm
      simp only [bumpKey, hk, if_false, ite_false, List.map_cons, List.mem_cons]
      by_cases hm : k ∈ xs.map Prod.fst
      · simp [ih, hm, hkk]
      · simp [ih, hm, hkk]

/-- Bumping preserves key distinctness. -/
theorem bumpKey_nodup (m : List ((ℤ × ℕ) × ℕ)) (k : ℤ × ℕ)
    (h : (m.map Prod.fst).Nodup) : ((bumpKey m k).map Prod.fst).Nodup := by
  rw [bumpKey_keys]
  by_cases hm : k ∈ m.map Prod.fst
  · simpa [hm] using h
  · simp only [hm, if_false, ite_false]
    simp [List.nodup_append, h, hm]

/-- Folding the month buckets over a list of bookings adds, at each key,
exactly the number of bookings created in that month. -/
theorem getCnt_monthMap_aux (bs : List Booking) (m : List ((ℤ × ℕ) × ℕ)) (k : ℤ × ℕ) :
    getCnt (bs.foldl (fun m b =>
      match b.createdAt with
      | none => m
      | some k' => bumpKey m k') m) k
      = getCnt m k + bs.countP (fun b => b.createdAt == some k) := by
  induction bs generalizing m with
  | nil => simp
  | cons b bs ih =>
    rw [List.foldl_cons, ih]
    rcases hc : b.createdAt with _ | k'
    · simp [List.countP_cons, hc]
    · by_cases hk : k' = k
      · subst hk
        rw [getCnt_bumpKey_self]
        simp [List.countP_cons, hc]
        omega
      · rw [getCnt_bumpKey_other _ _ _ (fun hh => hk hh.symm)]
        simp [List.countP_cons, hc, hk]

/-- The month map stores, under each key, the number of bookings whose
creation month is that key. -/
theorem getCnt_monthMap (bs : List Booking) (k : ℤ × ℕ) :
    getCnt (monthMap bs) k = bs.countP (fun b => b.createdAt == some k) := by
  have h := getCnt_monthMap_aux bs [] k
  simpa [monthMap, getCnt] using h

/-- The month map has pairwise distinct keys. -/
theorem monthMap_nodup (bs : List Booking) :
    ((monthMap bs).map Prod.fst).Nodup := by
  suffices h : ∀ m : List ((ℤ × ℕ) × ℕ), (m.map Prod.fst).Nodup →
      ((bs.foldl (fun m b =>
        match b.createdAt with
        | none => m
        | some k' => bumpKey m k') m).map Prod.fst).Nodup by
    exact h [] (by simp)
  induction bs with
  | nil => intro m hm; simpa using hm
  | cons b bs ih =>
    intro m hm
    rw [List.foldl_cons]
    rcases hc : b.createdAt with _ | k'
    · exact ih m hm
    · exact ih (bumpKey m k') (bumpKey_nodup m k' hm)

/-- Every count stored in the month map is positive. -/
theorem monthMap_pos (bs : List Booking) :
    ∀ e ∈ monthMap bs, 0 < e.2 := by
  suffices h : ∀ m : List ((ℤ × ℕ) × ℕ), (∀ e ∈ m, 0 < e.2) →
      ∀ e ∈ (bs.foldl (fun m b =>
        match b.createdAt with
        | none => m
        | some k' => bumpKey m k') m), 0 < e.2 by
    exact h [] (by simp)
  induction bs with
  | nil => intro m hm; simpa using hm
  | cons b bs ih =>
    intro m hm
    rw [List.foldl_cons]
    rcases hc : b.createdAt with _ | k'
    · exact ih m hm
    · exact ih (bumpKey m k') (bumpKey_pos m k' hm)

/-- With distinct keys, each stored entry carries its own key count. -/
theorem getCnt_of_mem (m : List ((ℤ × ℕ) × ℕ))
    (hn : (m.map Prod.fst).Nodup) (e : (ℤ × ℕ) × ℕ) (he : e ∈ m) :
    getCnt m e.1 = e.2 := by
  induction m with
  | nil => cases he
  | cons x xs ih =>
    rcases List.mem_cons.mp he with he | he
    · subst he
      simp [getCnt, List.find?_cons]
    · have hx : x.1 ≠ e.1 := by
        intro hcontra
        have : e.1 ∈ xs.map Prod.fst := List.mem_map_of_mem Prod.fst he
        rw [← hcontra] at this
        exact (List.nodup_cons.mp hn).1 this
      have hn' := (List.nodup_cons.mp hn).2
      simpa [getCnt, List.find?_cons, hx] using ih hn' he

/-- Membership is invariant under one sort insertion. -/
theorem mem_insSorted (x y : (ℤ × ℕ) × ℕ) (l : List ((ℤ × ℕ) × ℕ)) :
    y ∈ insSorted x l ↔ y = x ∨ y ∈ l := by
  induction l with
  | nil => simp [insSorted]
  | cons z zs ih =>
    by_cases h : keyTime x.1 ≤ keyTime z.1
    · simp [insSorted, h]
    · simp only [insSorted, h, if_false, ite_false, List.mem_cons, ih]
      tauto

/-- Membership is invariant under the chart sort. -/
theorem mem_sortEntries (y : (ℤ × ℕ) × ℕ) (l : List ((ℤ × ℕ) × ℕ)) :
    y ∈ sortEntries l ↔ y ∈ l := by
  induction l with
  | nil => simp [sortEntries]
  | cons z zs ih => simp [sortEntries, mem_insSorted, ih]

/-- Taking the trailing slice keeps at most `n` elements. -/
theorem length_lastN {α : Type} (n : ℕ) (l : List α) : (lastN n l).length ≤ n := by
  simp only [lastN, List.length_drop]
  omega

/-- One sort insertion preserves ascending order of the sort keys. -/
theorem pairwise_insSorted (x : (ℤ × ℕ) × ℕ) (l : List ((ℤ × ℕ) × ℕ))
    (h : l.Pairwise (fun a b => keyTime a.1 ≤ keyTime b.1)) :
    (insSorted x l).Pairwise (fun a b => keyTime a.1 ≤ keyTime b.1) := by
  induction l with
  | nil => simp [insSorted]
  | cons y ys ih =>
    rcases List.pairwise_cons.mp h with ⟨hy, hys⟩
    by_cases hxy : keyTime x.1 ≤ keyTime y.1
    · rw [insSorted, if_pos hxy]
      refine List.pairwise_cons.mpr ⟨?_, h⟩
      intro z hz
      rcases List.mem_cons.mp hz with rfl | hz
      · exact hxy
      · exact le_trans hxy (hy z hz)
    · rw [insSorted, if_neg hxy]
      refine List.pairwise_cons.mpr ⟨?_, ih hys⟩
      intro z hz
      rcases (mem_insSorted x z ys).mp hz with rfl | hz
      · exact le_of_not_le hxy
      · exact hy z hz

/-- The chart sort produces a list ascending in the sort key. -/
theorem pairwise_sortEntries (l : List ((ℤ × ℕ) × ℕ)) :
    (sortEntries l).Pairwise (fun a b => keyTime a.1 ≤ keyTime b.1) := by
  induction l with
  | nil => simp [sortEntries]
  | cons x xs ih => exact pairwise_insSorted x _ ih

/-- A key with a positive stored count occurs among the map keys. -/
theorem mem_keys_of_getCnt_pos (m : List ((ℤ × ℕ) × ℕ)) (k : ℤ × ℕ)
    (h : 0 < getCnt m k) : k ∈ m.map Prod.fst := by
  by_contra hn
  have hf : m.find? (fun x => x.1 == k) = none := by
    rw [List.find?_eq_none]
    intro x hx hbeq
    exact hn (List.mem_map.mpr ⟨x, hx, by simpa using hbeq⟩)
  simp [getCnt, hf] at h

/-- C7 amended: the booking chart consists of the most recent (up to) 6
non-empty creation months over all time, in ascending month order, each
entry counting exactly the bookings created in that month (hence
positive: zero-booking months never appear): at most 6 entries, correct
positive per-month counts, entries ascending in the month key, and every
month holding at least one booking appears in the chart unless the chart
is full with 6 entries and that month is no newer than every charted
month.  The entries need not lie in the trailing 6-month window ending
at the call time, which the computation never consults. -/
theorem c7_chart_counts (st : St) :
    (dashboardChart st).length ≤ 6
    ∧ (∀ e ∈ dashboardChart st,
        e.2 = (st.bookings.map Prod.snd).countP (fun b => b.createdAt == some e.1)
        ∧ 0 < e.2)
    ∧ (dashboardChart st).Pairwise (fun a b => keyTime a.1 ≤ keyTime b.1)
    ∧ ∀ k : ℤ × ℕ,
        0 < (st.bookings.map Prod.snd).countP (fun b => b.createdAt == some k) →
        k ∈ (dashboardChart st).map Prod.fst
        ∨ ((dashboardChart st).length = 6
           ∧ ∀ e ∈ dashboardChart st, keyTime k ≤ keyTime e.1) := by
  have hchart : dashboardChart st
      = (sortEntries (monthMap (st.bookings.map Prod.snd))).drop
          ((sortEntries (monthMap (st.bookings.map Prod.snd))).length - 6) := rfl
  refine ⟨?_, ?_, ?_, ?_⟩
  · exact length_lastN 6 (sortEntries (monthMap (st.bookings.map Prod.snd)))
  · intro e he
    have he1 : e ∈ sortEntries (monthMap (st.bookings.map Prod.snd)) :=
      List.drop_subset _ _ he
    have he2 : e ∈ monthMap (st.bookings.map Prod.snd) :=
      (mem_sortEntries _ _).mp he1
    have hcnt := getCnt_of_mem _ (monthMap_nodup (st.bookings.map Prod.snd)) e he2
    refine ⟨?_, monthMap_pos _ e he2⟩
    rw [← getCnt_monthMap]
    exact hcnt.symm
  · rw [hchart]
    exact List.Pairwise.sublist (List.drop_sublist _ _)
      (pairwise_sortEntries (monthMap (st.bookings.map Prod.snd)))
  · intro k hk
    have hg : 0 < getCnt (monthMap (st.bookings.map Prod.snd)) k := by
      rw [getCnt_monthMap]
      exact hk
    have hkey := mem_keys_of_getCnt_pos _ _ hg
    obtain ⟨ek, hek, hek1⟩ := List.mem_map.mp hkey
    have heks : ek ∈ sortEntries (monthMap (st.bookings.map Prod.snd)) :=
      (mem_sortEntries _ _).mpr hek
    have hsplit : ek ∈ (sortEntries (monthMap (st.bookings.map Prod.snd))).take
          ((sortEntries (monthMap (st.bookings.map Prod.snd))).length - 6)
        ++ (sortEntries (monthMap (st.bookings.map Prod.snd))).drop
          ((sortEntries (monthMap (st.bookings.map Prod.snd))).length - 6) := by
      rw [List.take_append_drop]
      exact heks
    rcases List.mem_append.mp hsplit with htake | hdrop
    · right
      have hpos : 0 < (sortEntries (monthMap (st.bookings.map Prod.snd))).length - 6 := by
        by_contra h0
        have h00 : (sortEntries (monthMap (st.bookings.map Prod.snd))).length - 6 = 0 := by
          omega
        rw [h00, List.take_zero] at htake
        cases htake
      constructor
      · rw [hchart, List.length_drop]
        omega
      · intro e hee
        have hsorted := pairwise_sortEntries (monthMap (st.bookings.map Prod.snd))
        rw [← List.take_append_drop
          ((sortEntries (monthMap (st.bookings.map Prod.snd))).length - 6)
          (sortEntries (monthMap (st.bookings.map Prod.snd)))] at hsorted
        have hcross := (List.pairwise_append.mp hsorted).2.2
        have hle := hcross ek htake e (by rw [hchart] at hee; exact hee)
        rw [hek1] at hle
        exact hle
    · left
      rw [hchart]
      exact List.mem_map.mpr ⟨ek, hdrop, hek1⟩

theorem c7_witness :
    ((2025, 9), 1) ∈ dashboardChart st0
    ∧ (dashboardChart st0).length ≤ 6
    ∧ (1 = (st0.bookings.map Prod.snd).countP
        (fun b => b.createdAt == some ((2025 : ℤ), (9 : ℕ)))
      ∧ 0 < 1)
    ∧ 0 < (st0.bookings.map Prod.snd).countP
        (fun b => b.createdAt == some ((2025 : ℤ), (9 : ℕ)))
    ∧ ((2025, 9) ∈ (dashboardChart st0).map Prod.fst
       ∨ ((dashboardChart st0).length = 6
          ∧ ∀ e ∈ dashboardChart st0, keyTime ((2025 : ℤ), (9 : ℕ)) ≤ keyTime e.1)) := by
  refine ⟨by decide, (c7_chart_counts st0).1, ?_, by decide, ?_⟩
  · exact (c7_chart_counts st0).2.1 ((2025, 9), 1) (by decide)
  · exact (c7_chart_counts st0).2.2.2 (2025, 9) (by decide)

theorem c7_counterexample :
    dashboardChart { bookings := [("old", { createdAt := some (2019, 0) })], payments := [] }
      = [((2019, 0), 1)]
    ∧ withinTrailing6 (2025, 9) (2019, 0) = false := by
  decide

end Travelio
